import Mathlib

/-!
Verification of the pdf-rs signing orchestrator and form filler.

We shallowly embed the code of src/src/lib.rs (PDFSigningDocument:
sign_document, copy_from, fill_form) and src/src/utils.rs (parse_font).
Machine integers are modelled as Nat/Int, byte buffers as lists of Nat,
f32 appearance coordinates as rationals, and fallible code as
Except/explicit outcome types.  The repository modules that are not
present under src/ (acro_form, digitally_sign, the lopdf PDF library)
are modelled from the spec or kept parametric in an environment record;
such definitions carry a doc comment saying so.
-/

namespace PdfRs

/-- Byte buffers (Rust Vec of u8) as lists of byte values. -/
abbrev Bytes := List Nat

/-- lopdf ObjectId: a pair of object number (u32) and generation (u16). -/
abbrev ObjectId := Nat × Nat

/-- The error type of the crate.  The error module is not under src/;
errors are distinguished only as far as the claims need: errors coming
from the lopdf library (dictionary key missing, type mismatch, content
decode failure, ...) versus the Other variant used in src/src/lib.rs. -/
inductive Error where
  | lopdfErr (kind : String)
  | other (msg : String)
  deriving Repr, DecidableEq

/-- serde_json values, as far as fill_form observes them:
as_str returns a string only for the string variant. -/
inductive JsonValue where
  | jstr (s : String)
  | jnum (n : Int)
  | jbool (b : Bool)
  | jnull
  deriving Repr, DecidableEq

/-- Json Value::as_str from serde_json. -/
def JsonValue.as_str : JsonValue → Option String
  | .jstr s => some s
  | _ => none

end PdfRs

namespace PdfRs

mutual

/-- lopdf Object, as far as fill_form observes it.  Machine reals (f32,
f64) are modelled as rationals.  A stream stores its dictionary and the
result of Content::decode on its (decompressed) bytes: some ops if
decoding succeeds, none if Content::decode fails. -/
inductive PdfObj where
  | null
  | boolean (b : Bool)
  | integer (i : Int)
  | real (r : Rat)
  | name (s : String)
  | strLit (s : String)
  | array (xs : List PdfObj)
  | reference (id : ObjectId)
  | dict (d : List (String × PdfObj))
  | stream (sdict : List (String × PdfObj)) (ops : Option (List ContentOp))

/-- A PDF content-stream operation (lopdf content::Operation): an
operator mnemonic plus its operand objects. -/
inductive ContentOp where
  | mk (operator : String) (operands : List PdfObj)

end

/-- Operator mnemonic of a content-stream operation. -/
def ContentOp.operator : ContentOp → String
  | .mk o _ => o

/-- Operand list of a content-stream operation. -/
def ContentOp.operands : ContentOp → List PdfObj
  | .mk _ l => l

/-- lopdf Document, as far as the code under src/ observes it: a
version string and the object table (used by fill_form), plus max_id
driving add_object. -/
structure Document where
  version : String
  objects : List (ObjectId × PdfObj)
  max_id : Nat

/-- lopdf IncrementalDocument: the immutable previous revisions (their
bytes and parsed form) and the mutable overlay new_document. -/
structure IncrementalDocument where
  prev_documents : Document
  prev_documents_bytes : Bytes
  new_document : Document

/-- UserFormSignatureInfo from src/src/user_signature_info.rs. -/
structure UserFormSignatureInfo where
  user_id : String
  box_id : String
  deriving Repr, DecidableEq

/-- UserSignatureInfo from src/src/user_signature_info.rs.  The signing
key material (SignerBuilder) is opaque to the claims and replaced by a
key identifier. -/
structure UserSignatureInfo where
  box_id : String
  user_id : String
  user_name : String
  user_email : String
  user_signature : Bytes
  user_signing_keys : String
  deriving Repr, DecidableEq

/-- Modelled from the spec: the acro_form module is not under src/.
A discovered form field records the object identity, the optional
parent-chain-derived partial name, whether the field type is Signature,
whether a /V value is present, and the form-level matching info
(user and box identifiers parsed from the field) used to pick a signer. -/
structure AcroForm where
  object_id : Option ObjectId
  partial_field_name : Option String
  is_signature : Bool
  has_value : Bool
  form_info : Option UserFormSignatureInfo
  deriving Repr, DecidableEq

/-- Modelled from the spec: is_empty_signature is true only for fields
whose field type is Signature and which carry no /V entry yet. -/
def AcroForm.is_empty_signature (f : AcroForm) : Bool :=
  f.is_signature && !f.has_value

/-- AcroForm::get_object_id accessor (module not under src/). -/
def AcroForm.get_object_id (f : AcroForm) : Option ObjectId := f.object_id

/-- AcroForm::get_partial_field_name accessor (module not under src/). -/
def AcroForm.get_partial_field_name (f : AcroForm) : Option String :=
  f.partial_field_name

/-- PDFSigningDocument from src/src/lib.rs. -/
structure PDFSigningDocument where
  raw_document : IncrementalDocument
  file_name : String
  image_signature_object_id : List (String × ObjectId)
  acro_form : Option (List AcroForm)

/-- PDFSigningDocument::new from src/src/lib.rs. -/
def PDFSigningDocument.new (raw_document : IncrementalDocument)
    (file_name : String) : PDFSigningDocument :=
  { raw_document := raw_document
    file_name := file_name
    image_signature_object_id := []
    acro_form := none }

/-- PDFSigningDocument::copy_from from src/src/lib.rs: replaces
raw_document, file_name and acro_form from the other document but, per
the source comment, does not replace image_signature_object_id. -/
def PDFSigningDocument.copy_from (self other : PDFSigningDocument) :
    PDFSigningDocument :=
  { raw_document := other.raw_document
    file_name := other.file_name
    image_signature_object_id := self.image_signature_object_id
    acro_form := other.acro_form }

end PdfRs

namespace PdfRs

/-- Rust str::split with a nonempty literal pattern, over character
lists.  The fuel argument bounds the number of steps; every step
consumes at least one character, so taking fuel equal to the length of
the input makes the fuel-exhausted branch unreachable. -/
def rustSplitAux (sep : List Char) : Nat → List Char → List Char → List (List Char)
  | _, [], acc => [acc.reverse]
  | 0, cs, acc => [acc.reverse ++ cs]
  | fuel + 1, c :: cs, acc =>
    if sep.isPrefixOf (c :: cs) then
      acc.reverse :: rustSplitAux sep fuel (List.drop sep.length (c :: cs)) []
    else
      rustSplitAux sep fuel cs (c :: acc)

/-- Rust str::split(pattern) collected to a Vec. -/
def rustSplit (sep s : String) : List String :=
  (rustSplitAux sep.data s.data.length s.data []).map String.mk

/-- Rust str::trim: drop whitespace from both ends. -/
def rustTrim (s : String) : String :=
  String.mk (((s.data.dropWhile Char.isWhitespace).reverse.dropWhile
    Char.isWhitespace).reverse)

/-- ASCII uppercase letter test (code points 65 to 90). -/
def isUpperAscii (c : Char) : Bool :=
  65 ≤ c.toNat && c.toNat ≤ 90

/-- Lowercasing of one character as Rust str::to_lowercase acts on
ASCII (the non-ASCII Unicode mappings are outside the model). -/
def rustCharToLower (c : Char) : Char :=
  if 65 ≤ c.toNat ∧ c.toNat ≤ 90 then Char.ofNat (c.toNat + 32) else c

/-- Rust str::to_lowercase restricted to the ASCII mappings. -/
def rustToLowercase (s : String) : String :=
  String.mk (s.data.map rustCharToLower)

/-- Whether a string contains an ASCII uppercase letter. -/
def containsUpperAscii (s : String) : Bool :=
  s.data.any isUpperAscii

/-- Value of a list of decimal digits. -/
def digitsVal (ds : List Char) : Nat :=
  ds.foldl (fun a c => a * 10 + (c.toNat - 48)) 0

/-- Rust str::parse to i32: optional sign, at least one digit, only
digits, and the value must fit in an i32. -/
def rustParseI32 (s : String) : Option Int :=
  let go : Int → List Char → Option Int := fun sign ds =>
    if ds.isEmpty then none
    else if ds.all Char.isDigit then
      let v : Int := sign * (digitsVal ds : Nat)
      if v < -(2 ^ 31) ∨ (2 ^ 31 : Int) - 1 < v then none else some v
    else none
  match s.data with
  | '+' :: rest => go 1 rest
  | '-' :: rest => go (-1) rest
  | cs => go 1 cs

/-- The pieces of the default-appearance string after stripping leading
slash characters and splitting on the Tf pattern
(src/src/utils.rs lines 10 to 13). -/
def tfParts (s : String) : List String :=
  rustSplit "Tf" (String.mk (s.data.dropWhile (fun c => c = '/')))

/-- Font-family tokens: piece 0 of tfParts, trimmed, split on single
spaces (src/src/utils.rs line 18). -/
def fontFamilyTokens (s : String) : List String :=
  rustSplit " " (rustTrim ((tfParts s).getD 0 ""))

/-- Color tokens: piece 1 of tfParts, trimmed, split on single spaces
(src/src/utils.rs line 19). -/
def colorTokens (s : String) : List String :=
  rustSplit " " (rustTrim ((tfParts s).getD 1 ""))

/-- parse_font from src/src/utils.rs.  Returns the font name and size
together with the color directive: the operator mnemonic and four
integer operands (unused operands are zero). -/
def parse_font (font_string : Option String) :
    (String × Int) × (String × Int × Int × Int × Int) :=
  let default_font : String × Int := ("Helv", 12)
  let default_color : String × Int × Int × Int × Int := ("g", 0, 0, 0, 0)
  match font_string with
  | some fs =>
    let font := tfParts fs
    if font.length < 2 then (default_font, default_color)
    else
      let font_family := fontFamilyTokens fs
      let font_color := colorTokens fs
      let f :=
        if 2 ≤ font_family.length then
          (font_family.getD 0 "", (rustParseI32 (font_family.getD 1 "")).getD 0)
        else default_font
      let c :=
        if font_color.length = 2 then
          ("g", (rustParseI32 (font_color.getD 0 "")).getD 0, 0, 0, 0)
        else if font_color.length = 4 then
          ("rg", (rustParseI32 (font_color.getD 0 "")).getD 0,
            (rustParseI32 (font_color.getD 1 "")).getD 0,
            (rustParseI32 (font_color.getD 2 "")).getD 0, 0)
        else if font_color.length = 5 then
          ("k", (rustParseI32 (font_color.getD 0 "")).getD 0,
            (rustParseI32 (font_color.getD 1 "")).getD 0,
            (rustParseI32 (font_color.getD 2 "")).getD 0,
            (rustParseI32 (font_color.getD 3 "")).getD 0)
        else default_color
      (f, c)
  | none => (default_font, default_color)


end PdfRs

namespace PdfRs

/-- Outcome of Rust code that may return Ok, return Err, or panic
(via unwrap on None or an out-of-bounds index). -/
inductive PRes (α : Type) where
  | ok (a : α)
  | err (e : Error)
  | panic

/-- Sequencing of panicking fallible computations: Err and panic
short-circuit, as the question-mark operator and panic unwinding do. -/
def PRes.bind {α β : Type} : PRes α → (α → PRes β) → PRes β
  | .ok a, f => f a
  | .err e, _ => .err e
  | .panic, _ => .panic

instance : Monad PRes where
  pure := .ok
  bind := PRes.bind

/-- Rust Option::unwrap: panics on None. -/
def unwrapOpt {α : Type} : Option α → PRes α
  | some a => .ok a
  | none => .panic

/-- Association-list lookup, first match (models lopdf Dictionary::get,
BTreeMap/serde Map lookup and HashMap::get on our list encodings). -/
def assocGet {κ α : Type} [DecidableEq κ] : List (κ × α) → κ → Option α
  | [], _ => none
  | (k', v) :: rest, k => if k' = k then some v else assocGet rest k

/-- Association-list update: replace the binding of the key if present,
append it otherwise (models Dictionary::set and HashMap insertion). -/
def assocSet {κ α : Type} [DecidableEq κ] : List (κ × α) → κ → α → List (κ × α)
  | [], k, v => [(k, v)]
  | (k', v') :: rest, k, v =>
    if k' = k then (k, v) :: rest else (k', v') :: assocSet rest k v

/-- lopdf Dictionary::get: Err(DictKey) when the key is absent. -/
def dictGetE (d : List (String × PdfObj)) (k : String) : PRes PdfObj :=
  match assocGet d k with
  | some o => .ok o
  | none => .err (Error.lopdfErr "DictKey")

/-- lopdf Dictionary::has. -/
def dictHas (d : List (String × PdfObj)) (k : String) : Bool :=
  (assocGet d k).isSome

/-- lopdf Object::as_array: Err(Type) unless the object is an array. -/
def asArrayP : PdfObj → PRes (List PdfObj)
  | .array xs => .ok xs
  | _ => .err (Error.lopdfErr "Type")

/-- lopdf Object::as_dict: Err(Type) unless the object is a dictionary. -/
def asDictP : PdfObj → PRes (List (String × PdfObj))
  | .dict d => .ok d
  | _ => .err (Error.lopdfErr "Type")

/-- lopdf Object::as_reference: Err(Type) unless a reference. -/
def asRefP : PdfObj → PRes ObjectId
  | .reference id => .ok id
  | _ => .err (Error.lopdfErr "Type")

/-- lopdf Object::as_stream_mut: Err(Type) unless a stream. -/
def asStreamP : PdfObj → PRes (List (String × PdfObj) × Option (List ContentOp))
  | .stream sdict ops => .ok (sdict, ops)
  | _ => .err (Error.lopdfErr "Type")

/-- lopdf Object::as_dict_mut as an Option, for the unwrap call sites. -/
def PdfObj.as_dict_opt : PdfObj → Option (List (String × PdfObj))
  | .dict d => some d
  | _ => none

/-- lopdf Document::get_object(_mut) as an Option. -/
def Document.get_object (doc : Document) (id : ObjectId) : Option PdfObj :=
  assocGet doc.objects id

/-- lopdf Document::get_object_mut behind the question-mark operator:
Err(ObjectNotFound) when absent. -/
def getObjectE (doc : Document) (id : ObjectId) : PRes PdfObj :=
  match doc.get_object id with
  | some o => .ok o
  | none => .err (Error.lopdfErr "ObjectNotFound")

/-- Replace the object stored under an id. -/
def Document.set_object (doc : Document) (id : ObjectId) (o : PdfObj) : Document :=
  { doc with objects := assocSet doc.objects id o }

/-- lopdf Document::add_object: bumps max_id and stores the object
under the fresh id (max_id, 0). -/
def Document.add_object (doc : Document) (o : PdfObj) : Document × ObjectId :=
  let id : ObjectId := (doc.max_id + 1, 0)
  ({ doc with objects := doc.objects ++ [(id, o)], max_id := doc.max_id + 1 }, id)

/-- The Rect entry extraction of fill_form (src/src/lib.rs lines
349-354): as_f64, else as_i64 as f64, else 0. -/
def rectNum : PdfObj → Rat
  | .real r => r
  | .integer i => (i : Rat)
  | _ => 0

end PdfRs

namespace PdfRs

/-- The operators stripped before regenerating the text appearance
(src/src/lib.rs lines 398-401). -/
def ignored_operators : List String :=
  ["bt", "tc", "tw", "tz", "g", "tm", "tr", "tf", "tj", "et", "q", "bmc", "emc"]

/-- Operand list of the color-setting operation (src/src/lib.rs lines
429-444): four operands for k, three for rg, one otherwise. -/
def colorOperands (font_color : String × Int × Int × Int × Int) : List PdfObj :=
  if font_color.1 = "k" then
    [.integer font_color.2.1, .integer font_color.2.2.1,
     .integer font_color.2.2.2.1, .integer font_color.2.2.2.2]
  else if font_color.1 = "rg" then
    [.integer font_color.2.1, .integer font_color.2.2.1, .integer font_color.2.2.2.1]
  else
    [.integer font_color.2.1]

/-- The vertical text offset of fill_form (src/src/lib.rs lines
447-456), the centering formula picked up from Poppler, over the
rectangle entries at indices 1 and 3. -/
def textYOffset (rect : List Rat) (font_size : Int) : Rat :=
  let dy := rect.getD 1 0 - rect.getD 3 0
  if dy > 0 then (0.5 : Rat) * dy - (0.4 : Rat) * (font_size : Rat)
  else (0.5 : Rat) * (font_size : Rat)

/-- The match on the default-appearance object feeding parse_font
(src/src/lib.rs lines 415-418): only a string literal yields a string
(the utf8 decoding step cannot fail in the model, where string bytes
are already text). -/
def daValue : PdfObj → Option String
  | .strLit s => some s
  | _ => none

/-- The appearance-stream rewrite of fill_form (src/src/lib.rs lines
397-470): drop every operation whose lowercased operator is among the
ignored operators, then append the regenerated text widget. -/
def regenerateOps (ops : List ContentOp) (value da : PdfObj)
    (rect : List Rat) : List ContentOp :=
  let kept := ops.filter (fun operation =>
    !(ignored_operators.contains (rustToLowercase operation.operator)))
  let font := parse_font (daValue da)
  let font_name := font.1.1
  let font_size := font.1.2
  let font_color := font.2
  let x : Rat := 2
  let y : Rat := textYOffset rect font_size
  kept ++
    [.mk "BMC" [.name "Tx"], .mk "q" [], .mk "BT" [],
     .mk "Tf" [.name font_name, .integer font_size],
     .mk font_color.1 (colorOperands font_color),
     .mk "Tm" [.integer 1, .integer 0, .integer 0, .integer 1, .real x, .real y],
     .mk "Tj" [value], .mk "ET" [], .mk "Q" [], .mk "EMC" []]

/-- One field of the fill_form loop body (src/src/lib.rs lines
317-478).  Outcome: ok with the updated document when the field is
skipped or filled, err when a question-mark operator propagates an
error, panic at the unwrap and slice-index call sites.  The new
appearance stream created in the no-AP branch holds the bytes of the
word stream, which Content::decode reads as one bare operator. -/
def fillField (data : List (String × JsonValue)) (doc0 : Document)
    (field : AcroForm) : PRes Document := do
  let object_id_opts := field.get_object_id
  let partial_field_name := (field.get_partial_field_name).getD ""
  let partial_field_name_lower_case := rustToLowercase partial_field_name
  let data_value_opts := assocGet data partial_field_name_lower_case
  match data_value_opts, object_id_opts with
  | some dv, some object_id => do
    let data_value ← unwrapOpt dv.as_str
    let fieldObj ← unwrapOpt (doc0.get_object object_id)
    let d0 ← unwrapOpt fieldObj.as_dict_opt
    let d1 := assocSet d0 "V" (PdfObj.strLit data_value)
    let doc1 := doc0.set_object object_id (.dict d1)
    let value ← dictGetE d1 "V"
    let da ← dictGetE d1 "DA"
    let rectObj ← dictGetE d1 "Rect"
    let rectArr ← asArrayP rectObj
    let rect := rectArr.map rectNum
    let state ←
      if dictHas d1 "AP" then do
        let ap ← dictGetE d1 "AP"
        let apd ← asDictP ap
        let n ← dictGetE apd "N"
        let sid ← asRefP n
        pure (doc1, sid)
      else do
        let add := doc1.add_object (PdfObj.stream [] (some [.mk "stream" []]))
        let doc2 := add.1
        let new_obj_id := add.2
        let fieldObj2 ← unwrapOpt (doc2.get_object object_id)
        let d2 ← unwrapOpt fieldObj2.as_dict_opt
        let d3 := assocSet d2 "AP" (PdfObj.dict [("N", PdfObj.reference new_obj_id)])
        let doc3 := doc2.set_object object_id (.dict d3)
        let ap ← dictGetE d3 "AP"
        let apd ← asDictP ap
        let n ← dictGetE apd "N"
        let sid ← asRefP n
        pure (doc3, sid)
    let docA := state.1
    let stream_id := state.2
    let sObj ← getObjectE docA stream_id
    let sPair ← asStreamP sObj
    let content ← match sPair.2 with
      | some l => pure l
      | none => PRes.err (Error.lopdfErr "ContentDecode")
    if rect.length < 4 then PRes.panic
    else
      let newOps := regenerateOps content value da rect
      pure (docA.set_object stream_id (PdfObj.stream sPair.1 (some newOps)))
  | _, _ => pure doc0

/-- The for-loop of fill_form over the discovered form fields. -/
def fillFields (data : List (String × JsonValue)) :
    Document → List AcroForm → PRes Document
  | doc, [] => .ok doc
  | doc, field :: rest =>
    match fillField data doc field with
    | .ok doc2 => fillFields data doc2 rest
    | .err e => .err e
    | .panic => .panic

/-- The external operations of the development: lopdf loading and
serialization, the field discovery of the acro_form module and the
signing of the digitally_sign module (all outside src/).  Theorems
quantify over an arbitrary environment. -/
structure Env where
  load_from : Bytes → Except Error IncrementalDocument
  load_all_forms : Document → Except Error (List AcroForm)
  digitally_sign_document : PDFSigningDocument → UserSignatureInfo → Except Error Bytes
  save_to : Document → Except Error Bytes

/-- PDFSigningDocument::read_from from src/src/lib.rs. -/
def read_from (env : Env) (reader : Bytes) (file_name : String) :
    Except Error PDFSigningDocument :=
  match env.load_from reader with
  | .ok raw_doc => .ok (PDFSigningDocument.new raw_doc file_name)
  | .error e => .error e

/-- PDFSigningDocument::load_acro_form from src/src/lib.rs: run field
discovery on the previous documents unless already loaded. -/
def load_acro_form (env : Env) (self : PDFSigningDocument) :
    Except Error PDFSigningDocument :=
  match self.acro_form with
  | none =>
    match env.load_all_forms self.raw_document.prev_documents with
    | .ok forms => .ok { self with acro_form := some forms }
    | .error e => .error e
  | some _ => .ok self

/-- PDFSigningDocument::load_all from src/src/lib.rs. -/
def load_all (env : Env) (self : PDFSigningDocument) :
    Except Error PDFSigningDocument :=
  load_acro_form env self

/-- PDFSigningDocument::fill_form from src/src/lib.rs (lines 308-491):
clone the previous documents, run the per-field loop, serialize, and
replace the session state by re-reading the produced bytes. -/
def fill_form (env : Env) (self : PDFSigningDocument)
    (data : List (String × JsonValue)) : PRes PDFSigningDocument :=
  let doc := self.raw_document.prev_documents
  let acro_forms := self.acro_form
  let run : PRes Document :=
    match acro_forms with
    | some form_fields => fillFields data doc form_fields
    | none => .ok doc
  match run with
  | .panic => .panic
  | .err e => .err e
  | .ok doc2 =>
    match env.save_to doc2 with
    | .error e => .err e
    | .ok new_binary_pdf =>
      match read_from env new_binary_pdf self.file_name with
      | .error e => .err e
      | .ok fresh =>
        match load_all env (self.copy_from fresh) with
        | .error e => .err e
        | .ok self2 => .ok self2

end PdfRs

namespace PdfRs

/-- The HashMap collected from the signer list, keyed by user_id
(src/src/lib.rs lines 202-206); a later duplicate key overwrites. -/
def usersMap (users : List UserSignatureInfo) : List (String × UserSignatureInfo) :=
  users.foldl (fun m info => assocSet m info.user_id info) []

/-- Setting new_document.version (src/src/lib.rs lines 192 and 260). -/
def setVersion (self : PDFSigningDocument) (v : String) : PDFSigningDocument :=
  { self with raw_document :=
    { self.raw_document with new_document :=
      { self.raw_document.new_document with version := v } } }

/-- Modelled from the spec: insertion of the signer image as a page
resource with the image cache keyed by a stable identifier (spec
section 4.2 and the Image Cache invariant).  On a cache miss the
overlay gains a new image object and the cache a new entry; on a hit
only drawing operators referencing the cached object are emitted,
which the claims do not further observe. -/
def insertSignatureImage (self : PDFSigningDocument)
    (user : UserSignatureInfo) : PDFSigningDocument :=
  match assocGet self.image_signature_object_id user.user_id with
  | some _ => self
  | none =>
    let add := self.raw_document.new_document.add_object
      (PdfObj.stream [("Subtype", PdfObj.name "Image")] none)
    { self with
      raw_document := { self.raw_document with new_document := add.1 }
      image_signature_object_id :=
        assocSet self.image_signature_object_id user.user_id add.2 }

/-- Modelled from the spec: add_signature_images is not under src/.
Per the Signer Input matching contract (spec sections 3 and 7), the
field is matched against the signer inputs through the form-level info
parsed from the field; a field finding no matching input is skipped,
not failed, and nothing is mutated for it.  On a match the signer
image is embedded and the updated document is returned together with
the form info of the match. -/
def add_signature_images (self : PDFSigningDocument) (form_field : AcroForm)
    (map : List (String × UserSignatureInfo)) :
    Except Error (PDFSigningDocument × Option (PDFSigningDocument × UserFormSignatureInfo)) :=
  match form_field.form_info with
  | none => .ok (self, none)
  | some user_form_info =>
    match assocGet map user_form_info.user_id with
    | none => .ok (self, none)
    | some user =>
      let self2 := insertSignatureImage self user
      .ok (self2, some (self2, user_form_info))

/-- The mutable state of the sign_document while loop
(src/src/lib.rs lines 195-275). -/
structure LoopState where
  self : PDFSigningDocument
  acro_forms : Option (List AcroForm)
  form_field_index : Nat
  form_field_current : Option AcroForm
  last_binary_pdf : Option Bytes
  loop_counter : Nat

/-- Outcome of one loop-body execution: done carries the loop exit
(the final state, or an early error return) and whether the iteration
ceiling guard tripped; next carries the state of the next iteration. -/
inductive StepRes where
  | done (r : Except Error LoopState) (tripped : Bool)
  | next (st : LoopState)

/-- One iteration of the while loop of sign_document (src/src/lib.rs
lines 212-275), in source order: exit when no current field, increment
the loop counter and break at the ceiling, skip fields that are not
empty signature fields, otherwise insert the signature images, sign,
and reload the session from the produced bytes. -/
def signLoopStep (env : Env) (map : List (String × UserSignatureInfo))
    (st : LoopState) : StepRes :=
  match st.form_field_current with
  | none => .done (.ok st) false
  | some form_field =>
    let c := st.loop_counter + 1
    if 10000 ≤ c then
      .done (.ok { st with loop_counter := c }) true
    else if !form_field.is_empty_signature then
      let idx := st.form_field_index + 1
      .next { st with
        form_field_index := idx
        form_field_current := st.acro_forms.bind (fun list => list.get? idx)
        loop_counter := c }
    else
      match add_signature_images st.self form_field map with
      | .error e => .done (.error e) false
      | .ok (self1, none) =>
        let idx := st.form_field_index + 1
        .next { self := self1
                acro_forms := st.acro_forms
                form_field_index := idx
                form_field_current := st.acro_forms.bind (fun list => list.get? idx)
                last_binary_pdf := st.last_binary_pdf
                loop_counter := c }
      | .ok (self1, some (pdf_document_image, user_form_info)) =>
        match assocGet map user_form_info.user_id with
        | none => .done (.error (Error.other "User was not found")) false
        | some user_info =>
          match env.digitally_sign_document pdf_document_image user_info with
          | .error e => .done (.error e) false
          | .ok new_binary_pdf =>
            match read_from env new_binary_pdf pdf_document_image.file_name with
            | .error e => .done (.error e) false
            | .ok fresh =>
              match load_all env (self1.copy_from fresh) with
              | .error e => .done (.error e) false
              | .ok self2 =>
                let self3 := setVersion self2 "1.5"
                let acro_forms := self3.acro_form
                .next { self := self3
                        acro_forms := acro_forms
                        form_field_index := 0
                        form_field_current := acro_forms.bind (fun list => list.get? 0)
                        last_binary_pdf := some new_binary_pdf
                        loop_counter := c }

/-- Result of running the while loop to completion: the loop exit (or
an early error), whether the ceiling guard tripped, and the number of
loop-body executions. -/
structure LoopOut where
  out : Except Error LoopState
  tripped : Bool
  iters : Nat

/-- A next outcome of the loop step carries a counter bumped by one
and strictly below the ceiling: the loop body increments the counter
and breaks at the ceiling before doing anything else. -/
theorem signLoopStep_next_counter (env : Env)
    (map : List (String × UserSignatureInfo)) (st st' : LoopState)
    (h : signLoopStep env map st = .next st') :
    st'.loop_counter = st.loop_counter + 1 ∧ st.loop_counter + 1 < 10000 := by
  unfold signLoopStep at h
  repeat' split at h
  all_goals
    try (by_cases hc : 10000 ≤ st.loop_counter + 1
         · simp only [if_pos hc] at h
           injection h
         · simp only [if_neg hc] at h
           first
           | (injection h with h2
              subst h2
              exact ⟨rfl, by omega⟩)
           | injection h)
  all_goals simp at h

/-- Iterating the loop step until done, exactly as the Rust while loop
runs; termination is by the same loop counter the source uses as its
guard. -/
def signLoopGo (env : Env) (map : List (String × UserSignatureInfo))
    (st : LoopState) : LoopOut :=
  match h : signLoopStep env map st with
  | .done r t =>
    { out := r, tripped := t
      iters := if st.form_field_current.isSome then 1 else 0 }
  | .next st2 =>
    let o := signLoopGo env map st2
    { out := o.out, tripped := o.tripped, iters := o.iters + 1 }
termination_by 10000 - st.loop_counter
decreasing_by
  have hc := signLoopStep_next_counter env map st st2 h
  omega

/-- The return of sign_document after the loop (src/src/lib.rs lines
277-284): the last produced bytes, else the unmodified previous
document bytes. -/
def signFinish (st : LoopState) : Except Error Bytes :=
  match st.last_binary_pdf with
  | some last_binary_pdf => .ok last_binary_pdf
  | none => .ok st.self.raw_document.prev_documents_bytes

/-- The state entering the while loop of sign_document (src/src/lib.rs
lines 191-210): version set to 1.5, the discovered field list cloned,
the first field current, no output yet, counter zero. -/
def initialLoopState (selfL : PDFSigningDocument) : LoopState :=
  let self1 := setVersion selfL "1.5"
  { self := self1
    acro_forms := self1.acro_form
    form_field_index := 0
    form_field_current := self1.acro_form.bind (fun list => list.get? 0)
    last_binary_pdf := none
    loop_counter := 0 }

/-- PDFSigningDocument::sign_document from src/src/lib.rs
(lines 186-284). -/
def sign_document (env : Env) (self : PDFSigningDocument)
    (users_signature_info : List UserSignatureInfo) : Except Error Bytes :=
  match load_all env self with
  | .error e => .error e
  | .ok selfL =>
    let map := usersMap users_signature_info
    match (signLoopGo env map (initialLoopState selfL)).out with
    | .error e => .error e
    | .ok final => signFinish final

end PdfRs

namespace PdfRs

@[simp] theorem PRes.bind_ok {α β : Type} (a : α) (f : α → PRes β) :
    PRes.bind (.ok a) f = f a := rfl

@[simp] theorem PRes.bind_err {α β : Type} (e : Error) (f : α → PRes β) :
    PRes.bind (.err e) f = .err e := rfl

@[simp] theorem PRes.bind_panic {α β : Type} (f : α → PRes β) :
    PRes.bind .panic f = .panic := rfl

@[simp] theorem PRes.monad_bind_eq {α β : Type} (x : PRes α) (f : α → PRes β) :
    x >>= f = PRes.bind x f := rfl

@[simp] theorem PRes.monad_pure_eq {α : Type} (a : α) :
    (pure a : PRes α) = .ok a := rfl

/-- Lowercasing a character never yields an ASCII uppercase letter. -/
theorem isUpperAscii_rustCharToLower (c : Char) :
    isUpperAscii (rustCharToLower c) = false := by
  unfold rustCharToLower isUpperAscii
  by_cases h : 65 ≤ c.toNat ∧ c.toNat ≤ 90
  · rw [if_pos h]
    have hv : (c.toNat + 32).isValidChar := Or.inl (by omega)
    have ht : (Char.ofNat (c.toNat + 32)).toNat = c.toNat + 32 := by
      unfold Char.ofNat
      rw [dif_pos hv]
      unfold Char.ofNatAux Char.toNat
      simp [UInt32.toNat, Nat.toUInt32, UInt32.ofNatCore]
    rw [ht]
    simp only [Bool.and_eq_false_iff, decide_eq_false_iff_not]
    omega
  · rw [if_neg h]
    simp only [Bool.and_eq_false_iff, decide_eq_false_iff_not]
    omega

/-- A lowercased string contains no ASCII uppercase letter. -/
theorem containsUpperAscii_rustToLowercase (s : String) :
    containsUpperAscii (rustToLowercase s) = false := by
  unfold containsUpperAscii rustToLowercase
  simp [List.any_map, Function.comp, isUpperAscii_rustCharToLower]

/-- A key containing an ASCII uppercase letter never equals a
lowercased string. -/
theorem ne_rustToLowercase_of_containsUpper (k s : String)
    (hk : containsUpperAscii k = true) : k ≠ rustToLowercase s := by
  intro he
  have := containsUpperAscii_rustToLowercase s
  rw [← he, hk] at this
  cases this

/-- C4: copy_from replaces the raw document, the file name and the
discovered form fields of a PDFSigningDocument from the other instance
but leaves the image cache untouched; since these four fields are the
entire session state, the image cache is the only state surviving a
reload done through copy_from. -/
theorem copy_from_replaces_all_but_image_cache (a b : PDFSigningDocument) :
    (a.copy_from b).raw_document = b.raw_document ∧
    (a.copy_from b).file_name = b.file_name ∧
    (a.copy_from b).acro_form = b.acro_form ∧
    (a.copy_from b).image_signature_object_id = a.image_signature_object_id ∧
    a.copy_from b =
      { raw_document := b.raw_document
        file_name := b.file_name
        image_signature_object_id := a.image_signature_object_id
        acro_form := b.acro_form } :=
  ⟨rfl, rfl, rfl, rfl, rfl⟩

/-- C7: parse_font takes the defaults when the default-appearance
string is absent or has no Tf piece, and otherwise distinguishes the
color directive by operand count, the tokens before the trailing
mnemonic: one operand gives the grayscale form g, three give the RGB
form rg, four give the CMYK form k, and any other token count falls
back to the default black grayscale color. -/
theorem parse_font_color_by_operand_count :
    parse_font none = (("Helv", 12), ("g", 0, 0, 0, 0)) ∧
    (∀ s : String, (tfParts s).length < 2 →
      parse_font (some s) = (("Helv", 12), ("g", 0, 0, 0, 0))) ∧
    (∀ (s : String) (ops : List String) (mn : String),
      2 ≤ (tfParts s).length → colorTokens s = ops ++ [mn] →
      ((ops.length = 1 → ((parse_font (some s)).2).1 = "g") ∧
       (ops.length = 3 → ((parse_font (some s)).2).1 = "rg") ∧
       (ops.length = 4 → ((parse_font (some s)).2).1 = "k"))) ∧
    (∀ s : String, 2 ≤ (tfParts s).length →
      (colorTokens s).length ≠ 2 → (colorTokens s).length ≠ 4 →
      (colorTokens s).length ≠ 5 →
      (parse_font (some s)).2 = ("g", 0, 0, 0, 0)) := by
  refine ⟨rfl, ?_, ?_, ?_⟩
  · intro s hlt
    simp only [parse_font]
    rw [if_pos hlt]
  · intro s ops mn hlen hct
    have hl : (colorTokens s).length = ops.length + 1 := by
      rw [hct]
      simp
    simp only [parse_font]
    rw [if_neg (Nat.not_lt.mpr hlen)]
    refine ⟨?_, ?_, ?_⟩ <;> intro hops <;>
      simp [hl, hops]
  · intro s hlen h2 h4 h5
    simp only [parse_font]
    rw [if_neg (Nat.not_lt.mpr hlen)]
    simp [h2, h4, h5]

/-- Concrete checks of the operand-count dichotomy of parse_font. -/
theorem parse_font_color_by_operand_count_witness :
    ((parse_font (some "/Helv 12 Tf 0 g")).2).1 = "g" ∧
    ((parse_font (some "/Helv 12 Tf 1 0 0 rg")).2).1 = "rg" ∧
    ((parse_font (some "/Helv 12 Tf 0 0 0 1 k")).2).1 = "k" ∧
    parse_font (some "no tf piece") = (("Helv", 12), ("g", 0, 0, 0, 0)) :=
  ⟨(parse_font_color_by_operand_count.2.2.1 "/Helv 12 Tf 0 g" ["0"] "g"
      (by decide) (by decide)).1 rfl,
   ((parse_font_color_by_operand_count.2.2.1 "/Helv 12 Tf 1 0 0 rg"
      ["1", "0", "0"] "rg" (by decide) (by decide)).2).1 rfl,
   ((parse_font_color_by_operand_count.2.2.1 "/Helv 12 Tf 0 0 0 1 k"
      ["0", "0", "0", "1"] "k" (by decide) (by decide)).2).2 rfl,
   parse_font_color_by_operand_count.2.1 "no tf piece" (by decide)⟩

end PdfRs

namespace PdfRs

/-- C10: fill_form matches data keys against the lowercased partial
field name.  A data key containing an ASCII uppercase letter never
matches any field, and a field whose partial name contains uppercase
letters is matched only by the all-lowercase form of its name: under
the exact name nothing happens, while under the lowercased name the
entry is consumed (observably, a non-string value there reaches the
unwrap and panics). -/
theorem fill_form_lowercase_matching :
    (∀ (doc : Document) (f : AcroForm) (k : String) (v : JsonValue),
      containsUpperAscii k = true →
      fillField [(k, v)] doc f = .ok doc) ∧
    (∀ (doc : Document) (f : AcroForm) (id : ObjectId) (v : JsonValue),
      f.object_id = some id →
      containsUpperAscii ((f.partial_field_name).getD "") = true →
      v.as_str = none →
      (fillField [(rustToLowercase ((f.partial_field_name).getD ""), v)] doc f
          = .panic ∧
       fillField [((f.partial_field_name).getD "", v)] doc f = .ok doc)) := by
  constructor
  · intro doc f k v hk
    have hne : k ≠ rustToLowercase ((f.partial_field_name).getD "") :=
      ne_rustToLowercase_of_containsUpper _ _ hk
    cases hobj : f.object_id <;>
      simp [fillField, AcroForm.get_object_id, AcroForm.get_partial_field_name,
        assocGet, hne, hobj]
  · intro doc f id v hobj hup hstr
    constructor
    · simp [fillField, AcroForm.get_object_id, AcroForm.get_partial_field_name,
        assocGet, hobj, hstr, unwrapOpt]
    · have hne : (f.partial_field_name).getD "" ≠
          rustToLowercase ((f.partial_field_name).getD "") :=
        ne_rustToLowercase_of_containsUpper _ _ hup
      simp [fillField, AcroForm.get_object_id, AcroForm.get_partial_field_name,
        assocGet, hne, hobj]

/-- Sample document used by concrete witnesses. -/
def docW : Document := { version := "1.5", objects := [], max_id := 0 }

/-- Sample field with an uppercase letter in its partial name. -/
def fieldW : AcroForm :=
  { object_id := some (1, 0)
    partial_field_name := some "Sig1"
    is_signature := false
    has_value := false
    form_info := none }

/-- Concrete checks of the lowercased matching of fill_form. -/
theorem fill_form_lowercase_matching_witness :
    fillField [("KeyA", JsonValue.jstr "x")] docW fieldW = .ok docW ∧
    fillField [("sig1", JsonValue.jnum 3)] docW fieldW = .panic ∧
    fillField [("Sig1", JsonValue.jnum 3)] docW fieldW = .ok docW :=
  ⟨fill_form_lowercase_matching.1 docW fieldW "KeyA" (JsonValue.jstr "x") (by decide),
   (fill_form_lowercase_matching.2 docW fieldW (1, 0) (JsonValue.jnum 3) rfl
      (by decide) rfl).1,
   (fill_form_lowercase_matching.2 docW fieldW (1, 0) (JsonValue.jnum 3) rfl
      (by decide) rfl).2⟩

end PdfRs

namespace PdfRs

/-- C8: the regenerated appearance stream keeps exactly the operations
whose lowercased operator is outside the fixed ignored set and appends
exactly the ten-operation text widget in order: BMC, q, BT, Tf, the
color operation, Tm with the vertical offset from the fixed centering
formula over the rectangle entries at indices 1 and 3, Tj with the
value, ET, Q, EMC. -/
theorem fill_form_appearance_sequence (ops : List ContentOp)
    (value da : PdfObj) (rect : List Rat) (hr : 4 ≤ rect.length) :
    (regenerateOps ops value da rect =
      ops.filter (fun op =>
        !(ignored_operators.contains (rustToLowercase op.operator))) ++
      [ContentOp.mk "BMC" [PdfObj.name "Tx"], ContentOp.mk "q" [],
       ContentOp.mk "BT" [],
       ContentOp.mk "Tf" [PdfObj.name (parse_font (daValue da)).1.1,
         PdfObj.integer (parse_font (daValue da)).1.2],
       ContentOp.mk ((parse_font (daValue da)).2).1
         (colorOperands (parse_font (daValue da)).2),
       ContentOp.mk "Tm" [PdfObj.integer 1, PdfObj.integer 0, PdfObj.integer 0,
         PdfObj.integer 1, PdfObj.real 2,
         PdfObj.real (textYOffset rect (parse_font (daValue da)).1.2)],
       ContentOp.mk "Tj" [value], ContentOp.mk "ET" [], ContentOp.mk "Q" [],
       ContentOp.mk "EMC" []]) ∧
    (∀ op ∈ ops, rustToLowercase op.operator ∈ ignored_operators →
      op ∉ ops.filter (fun op =>
        !(ignored_operators.contains (rustToLowercase op.operator)))) ∧
    (textYOffset rect (parse_font (daValue da)).1.2 =
      if rect.get ⟨1, by omega⟩ - rect.get ⟨3, by omega⟩ > 0 then
        (0.5 : Rat) * (rect.get ⟨1, by omega⟩ - rect.get ⟨3, by omega⟩) -
          (0.4 : Rat) * ((parse_font (daValue da)).1.2 : Rat)
      else (0.5 : Rat) * ((parse_font (daValue da)).1.2 : Rat)) := by
  refine ⟨rfl, ?_, ?_⟩
  · intro op hop hmem
    intro hin
    rcases List.mem_filter.mp hin with ⟨-, hpred⟩
    have hc : ignored_operators.contains (rustToLowercase op.operator) = true :=
      List.elem_eq_true_of_mem hmem
    rw [hc] at hpred
    simp at hpred
  · have h1 : rect.getD 1 0 = rect.get ⟨1, by omega⟩ := by
      rw [List.getD_eq_get]
    have h3 : rect.getD 3 0 = rect.get ⟨3, by omega⟩ := by
      rw [List.getD_eq_get]
    unfold textYOffset
    rw [h1, h3]

end PdfRs

namespace PdfRs

/-- Concrete application of the appearance-sequence theorem: a stream
with one stripped and one kept operation over a four-entry rectangle. -/
theorem fill_form_appearance_sequence_witness :
    regenerateOps [ContentOp.mk "g" [], ContentOp.mk "re" []]
        (PdfObj.strLit "v") PdfObj.null [0, 0, 100, 50] =
      ([ContentOp.mk "g" [], ContentOp.mk "re" []]).filter (fun op =>
        !(ignored_operators.contains (rustToLowercase op.operator))) ++
      [ContentOp.mk "BMC" [PdfObj.name "Tx"], ContentOp.mk "q" [],
       ContentOp.mk "BT" [],
       ContentOp.mk "Tf" [PdfObj.name (parse_font (daValue PdfObj.null)).1.1,
         PdfObj.integer (parse_font (daValue PdfObj.null)).1.2],
       ContentOp.mk ((parse_font (daValue PdfObj.null)).2).1
         (colorOperands (parse_font (daValue PdfObj.null)).2),
       ContentOp.mk "Tm" [PdfObj.integer 1, PdfObj.integer 0, PdfObj.integer 0,
         PdfObj.integer 1, PdfObj.real 2,
         PdfObj.real (textYOffset [0, 0, 100, 50]
           (parse_font (daValue PdfObj.null)).1.2)],
       ContentOp.mk "Tj" [PdfObj.strLit "v"], ContentOp.mk "ET" [],
       ContentOp.mk "Q" [], ContentOp.mk "EMC" []] :=
  (fill_form_appearance_sequence [ContentOp.mk "g" [], ContentOp.mk "re" []]
    (PdfObj.strLit "v") PdfObj.null [0, 0, 100, 50] (by decide)).1

end PdfRs

namespace PdfRs

/-- No signer input matches the field: the field carries no form-level
info, or the signer map has no entry under its user id (the spec
matching contract for Signer Inputs). -/
def noSignerMatch (map : List (String × UserSignatureInfo)) (f : AcroForm) : Prop :=
  match f.form_info with
  | none => True
  | some info => assocGet map info.user_id = none

instance (map : List (String × UserSignatureInfo)) (f : AcroForm) :
    Decidable (noSignerMatch map f) := by
  unfold noSignerMatch
  cases f.form_info <;> infer_instance

/-- An unmatched field makes add_signature_images return Ok None with
the document untouched. -/
theorem add_signature_images_no_match (self : PDFSigningDocument)
    (f : AcroForm) (map : List (String × UserSignatureInfo))
    (h : noSignerMatch map f) :
    add_signature_images self f map = .ok (self, none) := by
  unfold noSignerMatch at h
  unfold add_signature_images
  cases hfi : f.form_info with
  | none => rfl
  | some info =>
    rw [hfi] at h
    simp [h]

/-- An unmatched empty signature field makes the loop body advance
the field index by one with the session document, field list and
output unchanged and no error. -/
theorem signLoopStep_skip_unmatched (env : Env)
    (map : List (String × UserSignatureInfo)) (st : LoopState)
    (form_field : AcroForm)
    (hcur : st.form_field_current = some form_field)
    (hempty : form_field.is_empty_signature = true)
    (hnomatch : noSignerMatch map form_field)
    (hguard : st.loop_counter + 1 < 10000) :
    signLoopStep env map st = .next
      { self := st.self
        acro_forms := st.acro_forms
        form_field_index := st.form_field_index + 1
        form_field_current := st.acro_forms.bind
          (fun list => list.get? (st.form_field_index + 1))
        last_binary_pdf := st.last_binary_pdf
        loop_counter := st.loop_counter + 1 } := by
  unfold signLoopStep
  rw [hcur]
  simp only [hempty, Bool.not_true, Bool.false_eq_true, if_false,
    add_signature_images_no_match st.self form_field map hnomatch]
  rw [if_neg (by omega)]

/-- C5: a discovered empty signature field with no matching signer
input is skipped, not failed: the loop body advances the field index by
one, leaves the session document, the field list and the output bytes
unchanged, and produces no error; the run continues with the remaining
fields. -/
theorem sign_document_skips_unmatched_field (env : Env)
    (map : List (String × UserSignatureInfo)) (st : LoopState)
    (form_field : AcroForm)
    (hcur : st.form_field_current = some form_field)
    (hempty : form_field.is_empty_signature = true)
    (hnomatch : noSignerMatch map form_field)
    (hguard : st.loop_counter + 1 < 10000) :
    signLoopStep env map st = .next
      { self := st.self
        acro_forms := st.acro_forms
        form_field_index := st.form_field_index + 1
        form_field_current := st.acro_forms.bind
          (fun list => list.get? (st.form_field_index + 1))
        last_binary_pdf := st.last_binary_pdf
        loop_counter := st.loop_counter + 1 } :=
  signLoopStep_skip_unmatched env map st form_field hcur hempty hnomatch hguard

end PdfRs

namespace PdfRs

/-- Sample empty lopdf document for witnesses. -/
def docEmptyW : Document := { version := "1.5", objects := [], max_id := 0 }

/-- Sample incremental document for witnesses. -/
def incW : IncrementalDocument :=
  { prev_documents := docEmptyW
    prev_documents_bytes := [37, 80, 68, 70]
    new_document := docEmptyW }

/-- Sample environment for witnesses: loading yields a fixed document,
discovery yields no fields, signing yields fixed bytes. -/
def envW : Env :=
  { load_from := fun _ => .ok incW
    load_all_forms := fun _ => .ok []
    digitally_sign_document := fun _ _ => .ok [1, 2, 3]
    save_to := fun _ => .ok [37, 80] }

/-- Sample empty signature field carrying no form info. -/
def sigFieldW : AcroForm :=
  { object_id := none
    partial_field_name := some "sig"
    is_signature := true
    has_value := false
    form_info := none }

/-- Sample signing session holding one unmatched empty field. -/
def selfW : PDFSigningDocument :=
  { raw_document := incW
    file_name := "a.pdf"
    image_signature_object_id := []
    acro_form := some [sigFieldW] }

/-- Sample loop state at the start of the signing loop. -/
def stW : LoopState :=
  { self := selfW
    acro_forms := some [sigFieldW]
    form_field_index := 0
    form_field_current := some sigFieldW
    last_binary_pdf := none
    loop_counter := 0 }

/-- Concrete application of the skip theorem: one unmatched empty
signature field is skipped with the state otherwise unchanged. -/
theorem sign_document_skips_unmatched_field_witness :
    signLoopStep envW [] stW = .next
      { self := stW.self
        acro_forms := stW.acro_forms
        form_field_index := stW.form_field_index + 1
        form_field_current := stW.acro_forms.bind
          (fun list => list.get? (stW.form_field_index + 1))
        last_binary_pdf := stW.last_binary_pdf
        loop_counter := stW.loop_counter + 1 } :=
  sign_document_skips_unmatched_field envW [] stW sigFieldW rfl (by decide)
    (by decide) (by decide)

/-- C3: after a successful per-field signature the session state is
replaced wholesale: the session document is re-read from the freshly
produced bytes, field discovery is re-run on the re-read document, the
field index resets to 0 and the current field is the first freshly
discovered one; only the image cache carries over from before the
signature. -/
theorem sign_document_reloads_after_success (env : Env)
    (map : List (String × UserSignatureInfo)) (st : LoopState)
    (form_field : AcroForm) (self1 docImg : PDFSigningDocument)
    (info : UserFormSignatureInfo) (user : UserSignatureInfo)
    (new_binary_pdf : Bytes) (raw2 : IncrementalDocument)
    (forms2 : List AcroForm)
    (hcur : st.form_field_current = some form_field)
    (hguard : st.loop_counter + 1 < 10000)
    (hempty : form_field.is_empty_signature = true)
    (hadd : add_signature_images st.self form_field map =
      .ok (self1, some (docImg, info)))
    (huser : assocGet map info.user_id = some user)
    (hsign : env.digitally_sign_document docImg user = .ok new_binary_pdf)
    (hload : env.load_from new_binary_pdf = .ok raw2)
    (hdiscover : env.load_all_forms raw2.prev_documents = .ok forms2) :
    signLoopStep env map st = .next
      { self := setVersion
          { raw_document := raw2
            file_name := docImg.file_name
            image_signature_object_id := self1.image_signature_object_id
            acro_form := some forms2 } "1.5"
        acro_forms := some forms2
        form_field_index := 0
        form_field_current := forms2.get? 0
        last_binary_pdf := some new_binary_pdf
        loop_counter := st.loop_counter + 1 } := by
  unfold signLoopStep
  rw [hcur]
  simp only [hempty, Bool.not_true, Bool.false_eq_true, if_false, hadd, huser,
    hsign, read_from, hload, PDFSigningDocument.new, PDFSigningDocument.copy_from,
    load_all, load_acro_form, hdiscover, setVersion, Option.bind]
  rw [if_neg (by omega)]

end PdfRs

namespace PdfRs

/-- Sample form info parsed from a matched field. -/
def infoW : UserFormSignatureInfo := { user_id := "u1", box_id := "b1" }

/-- Sample signer input matching infoW. -/
def userW : UserSignatureInfo :=
  { box_id := "b1"
    user_id := "u1"
    user_name := "User One"
    user_email := "u@example.com"
    user_signature := [9, 9]
    user_signing_keys := "key" }

/-- Sample empty signature field matched by userW. -/
def sigFieldMW : AcroForm :=
  { object_id := none
    partial_field_name := some "sig1"
    is_signature := true
    has_value := false
    form_info := some infoW }

/-- Sample session holding the matched field. -/
def selfMW : PDFSigningDocument :=
  { raw_document := incW
    file_name := "a.pdf"
    image_signature_object_id := []
    acro_form := some [sigFieldMW] }

/-- The session after the signer image is embedded for userW. -/
def self1MW : PDFSigningDocument := insertSignatureImage selfMW userW

/-- Sample loop state at the matched field. -/
def stMW : LoopState :=
  { self := selfMW
    acro_forms := some [sigFieldMW]
    form_field_index := 0
    form_field_current := some sigFieldMW
    last_binary_pdf := none
    loop_counter := 0 }

/-- Sample signer map holding userW. -/
def mapMW : List (String × UserSignatureInfo) := [("u1", userW)]

/-- Concrete application of the reload theorem: after the one matched
field is signed, the state is rebuilt from the produced bytes with the
index reset and the freshly discovered (here empty) field list. -/
theorem sign_document_reloads_after_success_witness :
    signLoopStep envW mapMW stMW = .next
      { self := setVersion
          { raw_document := incW
            file_name := self1MW.file_name
            image_signature_object_id := self1MW.image_signature_object_id
            acro_form := some [] } "1.5"
        acro_forms := some []
        form_field_index := 0
        form_field_current := (([] : List AcroForm).get? 0)
        last_binary_pdf := some [1, 2, 3]
        loop_counter := stMW.loop_counter + 1 } :=
  sign_document_reloads_after_success envW mapMW stMW sigFieldMW self1MW self1MW
    infoW userW [1, 2, 3] incW [] rfl (by decide) (by decide) rfl rfl rfl rfl rfl

end PdfRs

namespace PdfRs

/-- Unfolding of signLoopGo in the done case. -/
theorem signLoopGo_eq_done (env : Env)
    (map : List (String × UserSignatureInfo)) (st : LoopState)
    (r : Except Error LoopState) (t : Bool)
    (h : signLoopStep env map st = .done r t) :
    signLoopGo env map st =
      { out := r, tripped := t
        iters := if st.form_field_current.isSome then 1 else 0 } := by
  conv_lhs => unfold signLoopGo
  split
  · rename_i r2 t2 h2
    rw [h] at h2
    injection h2 with e1 e2
    rw [e1, e2]
  · rename_i st2 h2
    rw [h] at h2
    injection h2

/-- Unfolding of signLoopGo in the next case. -/
theorem signLoopGo_eq_next (env : Env)
    (map : List (String × UserSignatureInfo)) (st st2 : LoopState)
    (h : signLoopStep env map st = .next st2) :
    signLoopGo env map st =
      { out := (signLoopGo env map st2).out
        tripped := (signLoopGo env map st2).tripped
        iters := (signLoopGo env map st2).iters + 1 } := by
  conv_lhs => unfold signLoopGo
  split
  · rename_i r2 t2 h2
    rw [h] at h2
    injection h2
  · rename_i st3 h2
    rw [h] at h2
    injection h2 with e1
    rw [e1]

/-- A tripped done outcome comes only from the ceiling guard, whose
exit is an Ok state. -/
theorem signLoopStep_done_tripped (env : Env)
    (map : List (String × UserSignatureInfo)) (st : LoopState)
    (r : Except Error LoopState)
    (h : signLoopStep env map st = .done r true) :
    ∃ fin, r = .ok fin := by
  unfold signLoopStep at h
  repeat' split at h
  all_goals try (dsimp only at h)
  all_goals
    try (by_cases hc : 10000 ≤ st.loop_counter + 1 <;> simp [hc] at h)
  all_goals
    first
    | (injection h with h1 h2
       first
       | exact ⟨_, h1.symm⟩
       | exact Bool.noConfusion h2)
    | injection h
    | exact ⟨_, h.symm⟩
    | exact ⟨_, h⟩

/-- The loop body runs at most the ceiling minus the entry counter. -/
theorem signLoopGo_iters_bound (env : Env)
    (map : List (String × UserSignatureInfo)) :
    ∀ (n : Nat) (st : LoopState), 10000 - st.loop_counter = n →
      st.loop_counter < 10000 →
      (signLoopGo env map st).iters ≤ 10000 - st.loop_counter := by
  intro n
  induction n using Nat.strong_induction_on with
  | _ n ih =>
    intro st hn hc
    cases hstep : signLoopStep env map st with
    | done r t =>
      rw [signLoopGo_eq_done env map st r t hstep]
      dsimp only
      split <;> omega
    | next st2 =>
      obtain ⟨h1, h2⟩ := signLoopStep_next_counter env map st st2 hstep
      rw [signLoopGo_eq_next env map st st2 hstep]
      dsimp only
      have hb := ih (10000 - st2.loop_counter) (by omega) st2 rfl (by omega)
      omega

/-- When the run trips the ceiling guard, the loop exit is Ok. -/
theorem signLoopGo_tripped_ok (env : Env)
    (map : List (String × UserSignatureInfo)) :
    ∀ (n : Nat) (st : LoopState), 10000 - st.loop_counter = n →
      (signLoopGo env map st).tripped = true →
      ∃ fin, (signLoopGo env map st).out = .ok fin := by
  intro n
  induction n using Nat.strong_induction_on with
  | _ n ih =>
    intro st hn htr
    cases hstep : signLoopStep env map st with
    | done r t =>
      rw [signLoopGo_eq_done env map st r t hstep] at htr ⊢
      dsimp only at htr ⊢
      subst htr
      exact signLoopStep_done_tripped env map st r hstep
    | next st2 =>
      obtain ⟨h1, h2⟩ := signLoopStep_next_counter env map st st2 hstep
      rw [signLoopGo_eq_next env map st st2 hstep] at htr ⊢
      dsimp only at htr ⊢
      exact ih (10000 - st2.loop_counter) (by omega) st2 rfl htr

/-- C2: the sign_document while loop executes at most 10000 body
iterations, the hard ceiling; when the guard trips, the loop exit is
an Ok state, never an error, and sign_document returns Ok with the
best-effort output: the most recent signed bytes, or the
previous-document bytes when none were produced. -/
theorem sign_document_loop_guard (env : Env)
    (self selfL : PDFSigningDocument) (users : List UserSignatureInfo)
    (hload : load_all env self = .ok selfL) :
    (signLoopGo env (usersMap users) (initialLoopState selfL)).iters ≤ 10000 ∧
    ((signLoopGo env (usersMap users) (initialLoopState selfL)).tripped = true →
      ∃ fin,
        (signLoopGo env (usersMap users) (initialLoopState selfL)).out =
          .ok fin ∧
        sign_document env self users = .ok
          (match fin.last_binary_pdf with
           | some b => b
           | none => fin.self.raw_document.prev_documents_bytes)) := by
  constructor
  · have := signLoopGo_iters_bound env (usersMap users) 10000
      (initialLoopState selfL) rfl (by simp [initialLoopState])
    omega
  · intro htr
    obtain ⟨fin, hfin⟩ := signLoopGo_tripped_ok env (usersMap users) 10000
      (initialLoopState selfL) rfl htr
    refine ⟨fin, hfin, ?_⟩
    simp only [sign_document, hload]
    rw [hfin]
    cases hl : fin.last_binary_pdf <;> simp [signFinish, hl]

/-- Concrete application of the loop-guard theorem at the sample
session. -/
theorem sign_document_loop_guard_witness :
    (signLoopGo envW (usersMap []) (initialLoopState selfW)).iters ≤ 10000 ∧
    ((signLoopGo envW (usersMap []) (initialLoopState selfW)).tripped = true →
      ∃ fin,
        (signLoopGo envW (usersMap []) (initialLoopState selfW)).out =
          .ok fin ∧
        sign_document envW selfW [] = .ok
          (match fin.last_binary_pdf with
           | some b => b
           | none => fin.self.raw_document.prev_documents_bytes)) :=
  sign_document_loop_guard envW selfW selfW [] rfl

end PdfRs

namespace PdfRs

/-- Under the no-match hypothesis one loop-body execution either exits
with an Ok state preserving the session document and the output, or
continues with only the counter and the field position advanced. -/
theorem signLoopStep_no_match_cases (env : Env)
    (map : List (String × UserSignatureInfo)) (st : LoopState)
    (forms0 : List AcroForm)
    (hacro : st.acro_forms = some forms0)
    (hcurr : st.form_field_current = forms0.get? st.form_field_index)
    (hmatch : ∀ f ∈ forms0, f.is_empty_signature = true → noSignerMatch map f) :
    (∃ fin t, signLoopStep env map st = .done (.ok fin) t ∧
      fin.self = st.self ∧ fin.last_binary_pdf = st.last_binary_pdf) ∨
    (∃ st2, signLoopStep env map st = .next st2 ∧ st2.self = st.self ∧
      st2.acro_forms = some forms0 ∧
      st2.last_binary_pdf = st.last_binary_pdf ∧
      st2.form_field_current = forms0.get? st2.form_field_index) := by
  cases hc : st.form_field_current with
  | none =>
    left
    refine ⟨st, false, ?_, rfl, rfl⟩
    unfold signLoopStep
    rw [hc]
  | some f =>
    have hf : f ∈ forms0 := List.get?_mem (hcurr.symm.trans hc)
    by_cases hg : 10000 ≤ st.loop_counter + 1
    · left
      refine ⟨{ st with loop_counter := st.loop_counter + 1 }, true, ?_, rfl, rfl⟩
      unfold signLoopStep
      rw [hc]
      simp [hg]
    · by_cases he : f.is_empty_signature = true
      · right
        refine ⟨_, signLoopStep_skip_unmatched env map st f hc he
            (hmatch f hf he) (by omega), rfl, hacro, rfl, ?_⟩
        rw [hacro]
        rfl
      · have he2 : f.is_empty_signature = false := by
          revert he
          cases f.is_empty_signature <;> simp
        right
        refine ⟨{ st with
            form_field_index := st.form_field_index + 1
            form_field_current := st.acro_forms.bind
              (fun list => list.get? (st.form_field_index + 1))
            loop_counter := st.loop_counter + 1 }, ?_, rfl, hacro, rfl, ?_⟩
        · unfold signLoopStep
          rw [hc]
          simp only [he2, Bool.not_false, if_true]
          rw [if_neg (by omega)]
        · rw [hacro]
          rfl

/-- Under the no-match hypothesis the loop exits Ok with the session
document unchanged and no output produced. -/
theorem signLoopGo_no_match (env : Env)
    (map : List (String × UserSignatureInfo)) (forms0 : List AcroForm)
    (hmatch : ∀ f ∈ forms0, f.is_empty_signature = true → noSignerMatch map f) :
    ∀ (n : Nat) (st : LoopState), 10000 - st.loop_counter = n →
      st.acro_forms = some forms0 →
      st.form_field_current = forms0.get? st.form_field_index →
      ∃ fin, (signLoopGo env map st).out = .ok fin ∧
        fin.self = st.self ∧ fin.last_binary_pdf = st.last_binary_pdf := by
  intro n
  induction n using Nat.strong_induction_on with
  | _ n ih =>
    intro st hn hacro hcurr
    rcases signLoopStep_no_match_cases env map st forms0 hacro hcurr hmatch with
      ⟨fin, t, hstep, hself, hlast⟩ | ⟨st2, hstep, hself, hacro2, hlast2, hcurr2⟩
    · rw [signLoopGo_eq_done env map st (.ok fin) t hstep]
      exact ⟨fin, rfl, hself, hlast⟩
    · obtain ⟨hc1, hc2⟩ := signLoopStep_next_counter env map st st2 hstep
      rw [signLoopGo_eq_next env map st st2 hstep]
      dsimp only
      obtain ⟨fin, hout, hself2, hlast3⟩ :=
        ih (10000 - st2.loop_counter) (by omega) st2 rfl hacro2 hcurr2
      exact ⟨fin, hout, by rw [hself2, hself], by rw [hlast3, hlast2]⟩

/-- C1: when no discovered empty signature field obtains a matching
signer input, no signing cycle succeeds and sign_document returns Ok
with the unmodified previous-document bytes of the input session. -/
theorem sign_document_no_match_returns_input (env : Env)
    (self : PDFSigningDocument) (users : List UserSignatureInfo)
    (forms0 : List AcroForm)
    (hacro : self.acro_form = some forms0)
    (hnomatch : ∀ f ∈ forms0, f.is_empty_signature = true →
      noSignerMatch (usersMap users) f) :
    sign_document env self users =
      .ok self.raw_document.prev_documents_bytes := by
  have hload : load_all env self = .ok self := by
    unfold load_all load_acro_form
    rw [hacro]
  have h0a : (initialLoopState self).acro_forms = some forms0 := by
    simp [initialLoopState, setVersion, hacro]
  have h0c : (initialLoopState self).form_field_current =
      forms0.get? (initialLoopState self).form_field_index := by
    simp [initialLoopState, setVersion, hacro]
  obtain ⟨fin, hout, hself, hlast⟩ :=
    signLoopGo_no_match env (usersMap users) forms0 hnomatch 10000
      (initialLoopState self) rfl h0a h0c
  simp only [sign_document, hload]
  rw [hout]
  dsimp only
  unfold signFinish
  rw [hlast, hself]
  simp [initialLoopState, setVersion]

/-- Concrete application of the no-match theorem: one empty signature
field, an empty signer list, output equal to the input bytes. -/
theorem sign_document_no_match_returns_input_witness :
    sign_document envW selfW [] =
      .ok selfW.raw_document.prev_documents_bytes :=
  sign_document_no_match_returns_input envW selfW [] [sigFieldW] rfl (by decide)

end PdfRs

namespace PdfRs

/-- A field that is not matched (no data entry under its lowercased
name, or no object id) is passed over with the document unchanged. -/
theorem fillField_skip (data : List (String × JsonValue)) (doc : Document)
    (g : AcroForm)
    (h : assocGet data (rustToLowercase ((g.partial_field_name).getD "")) = none ∨
      g.object_id = none) :
    fillField data doc g = .ok doc := by
  rcases h with h | h
  · cases hobj : g.object_id <;>
      simp [fillField, AcroForm.get_object_id, AcroForm.get_partial_field_name,
        h, hobj]
  · cases hdv : assocGet data (rustToLowercase ((g.partial_field_name).getD "")) <;>
      simp [fillField, AcroForm.get_object_id, AcroForm.get_partial_field_name,
        h, hdv]

/-- A prefix of unmatched fields does not change the fill loop. -/
theorem fillFields_skip_front (data : List (String × JsonValue))
    (doc : Document) (pre rest : List AcroForm)
    (hpre : ∀ g ∈ pre, assocGet data
        (rustToLowercase ((g.partial_field_name).getD "")) = none ∨
      g.object_id = none) :
    fillFields data doc (pre ++ rest) = fillFields data doc rest := by
  induction pre with
  | nil => rfl
  | cons g gs ih =>
    rw [List.cons_append]
    simp only [fillFields]
    rw [fillField_skip data doc g (hpre g (by simp))]
    exact ih (fun x hx => hpre x (by simp [hx]))

/-- A field whose processing errs aborts the fill loop at once: the
remaining fields are not processed, whatever they are. -/
theorem fillFields_err (data : List (String × JsonValue)) (doc : Document)
    (f : AcroForm) (rest : List AcroForm) (e : Error)
    (herr : fillField data doc f = .err e) :
    fillFields data doc (f :: rest) = .err e := by
  simp only [fillFields]
  rw [herr]

/-- A field whose processing panics aborts the fill loop at once. -/
theorem fillFields_panic (data : List (String × JsonValue)) (doc : Document)
    (f : AcroForm) (rest : List AcroForm)
    (hp : fillField data doc f = .panic) :
    fillFields data doc (f :: rest) = .panic := by
  simp only [fillFields]
  rw [hp]

/-- C6 amended: a per-field parsing failure in fill_form is fatal to
the whole fill: the error propagates out of fill_form, the remaining
fields are not processed, and the session is left unchanged (the
modified clone is dropped). -/
theorem fill_form_field_error_aborts (env : Env)
    (self : PDFSigningDocument) (data : List (String × JsonValue))
    (pre : List AcroForm) (f : AcroForm) (rest : List AcroForm) (e : Error)
    (hacro : self.acro_form = some (pre ++ f :: rest))
    (hpre : ∀ g ∈ pre, assocGet data
        (rustToLowercase ((g.partial_field_name).getD "")) = none ∨
      g.object_id = none)
    (herr : fillField data self.raw_document.prev_documents f = .err e) :
    fill_form env self data = .err e := by
  simp only [fill_form, hacro]
  rw [fillFields_skip_front data self.raw_document.prev_documents pre
    (f :: rest) hpre]
  rw [fillFields_err data self.raw_document.prev_documents f rest e herr]

/-- A matched field whose data value is not a JSON string makes the
field processing panic at the value unwrap, before anything else. -/
theorem fillField_nonstring_panics (data : List (String × JsonValue))
    (doc : Document) (f : AcroForm) (id : ObjectId) (v : JsonValue)
    (hobj : f.object_id = some id)
    (hdv : assocGet data (rustToLowercase ((f.partial_field_name).getD "")) =
      some v)
    (hstr : v.as_str = none) :
    fillField data doc f = .panic := by
  simp [fillField, AcroForm.get_object_id, AcroForm.get_partial_field_name,
    hobj, hdv, hstr, unwrapOpt]

/-- C9 amended: when the first form field that has an object id and
whose lowercased partial name is bound in the data map finds a
non-string JSON value there, fill_form panics instead of returning an
error; if an earlier matched field fails with an error first,
fill_form returns that error instead of panicking. -/
theorem fill_form_nonstring_first_match_panics (env : Env)
    (self : PDFSigningDocument) (data : List (String × JsonValue))
    (pre : List AcroForm) (f : AcroForm) (rest : List AcroForm)
    (id : ObjectId) (v : JsonValue)
    (hacro : self.acro_form = some (pre ++ f :: rest))
    (hpre : ∀ g ∈ pre, assocGet data
        (rustToLowercase ((g.partial_field_name).getD "")) = none ∨
      g.object_id = none)
    (hobj : f.object_id = some id)
    (hdv : assocGet data (rustToLowercase ((f.partial_field_name).getD "")) =
      some v)
    (hstr : v.as_str = none) :
    fill_form env self data = .panic := by
  simp only [fill_form, hacro]
  rw [fillFields_skip_front data self.raw_document.prev_documents pre
    (f :: rest) hpre]
  rw [fillFields_panic data self.raw_document.prev_documents f rest
    (fillField_nonstring_panics data self.raw_document.prev_documents f id v
      hobj hdv hstr)]

end PdfRs

namespace PdfRs

/-- A document holding one text field dictionary without a DA entry
and a second plain field dictionary. -/
def docNoDA : Document :=
  { version := "1.5"
    objects := [((1, 0), PdfObj.dict [("T", PdfObj.strLit "name1")]),
                ((2, 0), PdfObj.dict [("T", PdfObj.strLit "num1")])]
    max_id := 2 }

/-- Incremental wrapper around docNoDA. -/
def incNoDA : IncrementalDocument :=
  { prev_documents := docNoDA
    prev_documents_bytes := [1, 2, 3]
    new_document := docNoDA }

/-- A value field whose dictionary lacks DA. -/
def fieldNoDA : AcroForm :=
  { object_id := some (1, 0)
    partial_field_name := some "name1"
    is_signature := false
    has_value := false
    form_info := none }

/-- A second value field, bound to a non-string data value below. -/
def fieldNum : AcroForm :=
  { object_id := some (2, 0)
    partial_field_name := some "num1"
    is_signature := false
    has_value := false
    form_info := none }

/-- Session holding both fields of docNoDA. -/
def selfNoDA : PDFSigningDocument :=
  { raw_document := incNoDA
    file_name := "f.pdf"
    image_signature_object_id := []
    acro_form := some [fieldNoDA, fieldNum] }

/-- Data binding the first field to a string and the second to a
number. -/
def dataNoDA : List (String × JsonValue) :=
  [("name1", JsonValue.jstr "v"), ("num1", JsonValue.jnum 7)]

/-- C6 counterexample: the first field has a matching string value but
its dictionary lacks DA, a per-field parsing failure; fill_form
returns that error for the whole fill instead of skipping the field
and continuing with the remaining field. -/
theorem fill_form_da_error_counterexample :
    fill_form envW selfNoDA dataNoDA = .err (Error.lopdfErr "DictKey") := by
  rfl

/-- Concrete application of the error-abort theorem at the same
session. -/
theorem fill_form_field_error_aborts_witness :
    fill_form envW selfNoDA dataNoDA = .err (Error.lopdfErr "DictKey") ∧
    fillField dataNoDA selfNoDA.raw_document.prev_documents fieldNoDA =
      .err (Error.lopdfErr "DictKey") :=
  ⟨fill_form_field_error_aborts envW selfNoDA dataNoDA [] fieldNoDA [fieldNum]
     (Error.lopdfErr "DictKey") rfl (by simp) rfl,
   rfl⟩

/-- C9 counterexample: the second field has an object id and a
non-string value bound under its lowercased name, yet this call of
fill_form returns an error (the first field fails with a missing DA
before the non-string value is reached) instead of panicking. -/
theorem fill_form_nonstring_no_panic_counterexample :
    fill_form envW selfNoDA dataNoDA = .err (Error.lopdfErr "DictKey") ∧
    fieldNum ∈ [fieldNoDA, fieldNum] ∧
    fieldNum.object_id = some (2, 0) ∧
    assocGet dataNoDA
      (rustToLowercase ((fieldNum.partial_field_name).getD "")) =
      some (JsonValue.jnum 7) ∧
    (JsonValue.jnum 7).as_str = none := by
  exact ⟨rfl, by decide, rfl, rfl, rfl⟩

/-- Session whose first matched field carries the non-string value. -/
def selfNum : PDFSigningDocument :=
  { raw_document := incNoDA
    file_name := "f.pdf"
    image_signature_object_id := []
    acro_form := some [fieldNum] }

/-- Concrete application of the first-match panic theorem. -/
theorem fill_form_nonstring_first_match_panics_witness :
    fill_form envW selfNum dataNoDA = .panic :=
  fill_form_nonstring_first_match_panics envW selfNum dataNoDA [] fieldNum []
    (2, 0) (JsonValue.jnum 7) rfl (by simp) rfl rfl rfl

end PdfRs
